import Mathlib

/-!
Verification of the `power-user-weather` core subsystems against its
specification: the model registry (`src/models.rs`), the measure/model key
resolver and columnar decoder (`src/fetch_data.rs`), and the TTL disk cache
(`src/url_fetch.rs`).

Rust strings are modelled as Lean `String` / `List Char`; all registry
identifiers and the keys in question are ASCII, so byte-wise order and
char-wise order coincide. Machine integers do not occur on these paths
except for 32-bit words inside SHA-256, modelled as `Nat` reduced `% 2^32`.
-/

/-! ## Generic string helpers (byte/char level) -/

/-- Lexicographic strict order on char lists by code point: the order of
Rust `&str` (byte-wise UTF-8 order; identical on ASCII data). -/
def strLtB : List Char → List Char → Bool
  | [], [] => false
  | [], _ :: _ => true
  | _ :: _, [] => false
  | a :: as, b :: bs =>
    if a.toNat < b.toNat then true
    else if b.toNat < a.toNat then false
    else strLtB as bs

/-- `k.ends_with m` of Rust `str`: `m` is a suffix of `k`. -/
def endsWithB (k m : String) : Bool :=
  if m.data.length ≤ k.data.length then
    k.data.drop (k.data.length - m.data.length) == m.data
  else false

/-- `k.strip_suffix(suf)` of Rust `str`: drop the suffix when present. -/
def stripSuffixB (k suf : String) : Option String :=
  if endsWithB k suf then some ⟨k.data.take (k.data.length - suf.data.length)⟩
  else none

/-! ## `src/models.rs`: the three fixed model lists -/

def ARCHIVE_MODELS : List String :=
  ["best_match", "ecmwf_ifs", "ecmwf_ifs_analysis_long_window", "era5_seamless",
   "era5", "era5_land", "era5_ensemble", "cerra"]

def ARCHIVE_DAILY_SUMMABLE_PRECIPITATION_MEASURES : List String :=
  ["rain_sum", "snowfall_sum", "precipitation_sum", "precipitation_hours"]

def FORECAST_MODELS : List String :=
  ["best_match", "ecmwf_ifs", "ecmwf_ifs025", "ecmwf_aifs025_single",
   "cma_grapes_global", "bom_access_global", "icon_seamless", "icon_global",
   "icon_eu", "icon_d2", "metno_seamless", "metno_nordic",
   "dmi_harmonie_arome_europe", "dmi_seamless",
   "knmi_harmonie_arome_netherlands", "knmi_harmonie_arome_europe",
   "knmi_seamless", "gem_hrdps_west", "gem_hrdps_continental", "gem_regional",
   "gem_global", "gem_seamless", "ncep_hgefs025_ensemble_mean",
   "ncep_aigfs025", "gfs_graphcast025", "ncep_nam_conus", "ncep_nbm_conus",
   "gfs_hrrr", "gfs_global", "gfs_seamless", "jma_seamless", "jma_msm",
   "jma_gsm", "meteofrance_seamless", "meteofrance_arpege_world",
   "meteofrance_arpege_europe", "meteofrance_arome_france",
   "meteofrance_arome_france_hd", "ukmo_seamless",
   "ukmo_global_deterministic_10km", "ukmo_uk_deterministic_2km",
   "meteoswiss_icon_ch2", "meteoswiss_icon_ch1", "meteoswiss_icon_seamless",
   "italia_meteo_arpae_icon_2i", "kma_gdps", "kma_ldps", "kma_seamless"]

def FORECAST_DAILY_SUMMABLE_PRECIPITATION_MEASURES : List String :=
  ["rain_sum", "showers_sum", "snowfall_sum", "precipitation_sum",
   "precipitation_hours"]

def ENSEMBLE_MODELS : List String :=
  ["icon_seamless_eps", "icon_global_eps", "icon_eu_eps", "icon_d2_eps",
   "meteoswiss_icon_ch1_ensemble", "meteoswiss_icon_ch2_ensemble",
   "ncep_aigefs025", "ncep_gefs025", "ncep_gefs05", "ncep_gefs_seamless",
   "bom_access_global_ensemble", "gem_global_ensemble",
   "ecmwf_ifs025_ensemble", "ecmwf_aifs025_ensemble",
   "ukmo_global_ensemble_20km", "ukmo_uk_ensemble_2km"]

def ENSEMBLE_DAILY_SUMMABLE_PRECIPITATION_MEASURES : List String :=
  ["rain_sum", "snowfall_sum", "precipitation_sum", "precipitation_hours"]

/-! ## `src/models.rs`: `ALL_DISTINCT_MODELS`

The Rust code inserts the three arrays into a `BTreeSet<&str>` (yielding the
byte-lexicographically sorted deduplicated sequence) and then runs the
standard library's stable sort with key `Reverse(s.len())`. We reproduce
both steps with sorted-insertion (which computes the same sequences: sorted
dedup, then the unique stable length-descending reordering). -/

/-- Insertion into a `BTreeSet`-style sorted distinct list (lexicographic). -/
def btreeInsert (s : String) : List String → List String
  | [] => [s]
  | h :: t =>
    if s = h then h :: t
    else if strLtB s.data h.data then s :: h :: t
    else h :: btreeInsert s t

/-- Collect a list into its sorted distinct (BTreeSet iteration) sequence. -/
def btreeSetOfList (l : List String) : List String :=
  l.foldl (fun acc s => btreeInsert s acc) []

/-- Stable insertion for descending-length order: the inserted element
(originally earlier than everything in the list) is placed before the first
element of smaller-or-equal length, as Rust's stable
`sort_by_key(Reverse(len))` does. -/
def insertLenDesc (s : String) : List String → List String
  | [] => [s]
  | h :: t =>
    if h.data.length ≤ s.data.length then s :: h :: t
    else h :: insertLenDesc s t

/-- Stable sort by descending length (insertion sort, which is stable, hence
computes the same sequence as Rust's stable sort with that key). -/
def sortLenDesc : List String → List String
  | [] => []
  | h :: t => insertLenDesc h (sortLenDesc t)

/-- `ALL_DISTINCT_MODELS` of `src/models.rs`: dedupe the three model lists
through a BTreeSet, then stably sort by length descending. -/
def ALL_DISTINCT_MODELS : List String :=
  sortLenDesc (btreeSetOfList (ARCHIVE_MODELS ++ FORECAST_MODELS ++ ENSEMBLE_MODELS))

/-! ## `src/fetch_data.rs`: the key resolver -/

structure MeasureAndModel where
  measure : String
  model : String

deriving DecidableEq, Repr

/-- The two failure kinds of `response_key_to_measure_and_model` (in the
source, `anyhow` errors with these two messages). Each carries the offending
key, as the source messages do. -/
inductive ResolveError where
  | unresolvableFieldKey (key : String)
  | missingKeySeparator (key : String)

deriving DecidableEq, Repr

/-- `response_key_to_measure_and_model` of `src/fetch_data.rs`: find the
first entry of `ALL_DISTINCT_MODELS` that is a suffix of `key`; then strip
`"_" ++ model` from the end of `key` to obtain the measure. -/
def response_key_to_measure_and_model (key : String) :
    Except ResolveError MeasureAndModel :=
  match ALL_DISTINCT_MODELS.find? (fun m => endsWithB key m) with
  | none => .error (.unresolvableFieldKey key)
  | some model =>
    match stripSuffixB key ("_" ++ model) with
    | none => .error (.missingKeySeparator key)
    | some measure => .ok ⟨measure, model⟩

deriving instance DecidableEq for Except

/-! ## Shared lemmas about `find?` on the length-sorted registry -/

/-! ## `src/url_fetch.rs`: the TTL disk cache

The filesystem state of the one cache file relevant to a request is modelled
explicitly: whether the file exists, whether `fs::metadata` /
`metadata.modified()` succeed, the stored modification time, whether
`fs::read_to_string` succeeds, and the stored body. Time is an integer
timeline in seconds; `SystemTime::duration_since(earlier)` fails exactly
when `earlier` is later than `self`, which the model mirrors. The network
call is modelled by its outcome (`Except`), and the cache write by a success
flag, since `write_cache`'s only observable effect here is its `Result`. -/

/-- `CACHE_TTL` of `src/url_fetch.rs`: one hour, in seconds. -/
def CACHE_TTL : Int := 60 * 60

/-- State of the cache file for the requested URL. `metadataOk` covers the
two fallible metadata steps (`fs::metadata(path)?` and
`metadata.modified()?`); `readOk` covers `fs::read_to_string(path)?`. -/
structure CacheFile where
  present : Bool
  metadataOk : Bool
  modified : Int
  readOk : Bool
  contents : String

deriving DecidableEq, Repr

/-- The cache-side IO failures that `read_if_fresh` / `write_cache` can
produce (all `?`-propagated `anyhow` errors in the source). -/
inductive CacheIoError where
  | metadataFailure
  | clockSkew
  | readFailure
  | writeFailure

deriving DecidableEq, Repr

inductive NetworkError where
  | connectionFailure
  | httpStatusFailure (code : Nat)

deriving DecidableEq, Repr

/-- Errors of `fetch_url_cached` (an `anyhow::Result` in the source): either
a cache IO error or a network error, both propagated by `?`. -/
inductive FetchError where
  | cacheIo (e : CacheIoError)
  | network (e : NetworkError)

deriving DecidableEq, Repr

/-- `read_if_fresh` of `src/url_fetch.rs`: `Ok(None)` when the file is
absent; `?`-propagated errors when metadata is unreadable, when
`duration_since` fails (modification time in the future), or when the read
fails; `Ok(Some(contents))` when the age is strictly below the TTL;
`Ok(None)` when expired. -/
def read_if_fresh (f : CacheFile) (now : Int) :
    Except CacheIoError (Option String) :=
  if f.present = false then .ok none
  else if f.metadataOk = false then .error .metadataFailure
  else if now < f.modified then .error .clockSkew
  else if now - f.modified < CACHE_TTL then
    (if f.readOk then .ok (some f.contents) else .error .readFailure)
  else .ok none

/-- `fetch_url_cached` of `src/url_fetch.rs`, for a URL whose cache path
derivation succeeded: consult `read_if_fresh` (propagating its error with
`?`), return a fresh cached body, otherwise perform the network call
(`send` + `error_for_status` + `text`, modelled by its outcome `net`) and
then `write_cache(...)?` — whose failure is likewise propagated — before
returning the body. -/
def fetch_url_cached (f : CacheFile) (now : Int)
    (net : Except NetworkError String) (writeOk : Bool) :
    Except FetchError String :=
  match read_if_fresh f now with
  | .error e => .error (.cacheIo e)
  | .ok (some contents) => .ok contents
  | .ok none =>
    match net with
    | .error e => .error (.network e)
    | .ok body => if writeOk then .ok body else .error (.cacheIo .writeFailure)

/-! ## `src/fetch_data.rs`: the columnar decoder

`decode_response_to_daily_data_columnar_format` first runs
`serde_json::from_str`; the embedding takes that parse's outcome as its
input (`none` = JSON parse failure), since the claims under study concern
what the decoder does with the parse result. The numeric payload type `f64`
never participates in any arithmetic or comparison on this path — values are
moved verbatim — so it is modelled by a type parameter `α`. `serde`'s
flattened `HashMap` is modelled as the association list of its entries (its
iteration order does not matter for any claim proved here: error cases are
stated by existence and success cases entrywise). -/

structure DailyDataRawColumnarFormat (α : Type) where
  time : List String
  data_fields : List (String × List (Option α))

deriving DecidableEq, Repr

/-- The top-level response struct: only the optional `daily` object is
extracted. -/
structure DailyDataResponseFullResponse (α : Type) where
  daily : Option (DailyDataRawColumnarFormat α)

deriving DecidableEq, Repr

structure DailyDataColumnarFormat (α : Type) where
  time : List String
  data_fields : List (MeasureAndModel × List (Option α))

deriving DecidableEq, Repr

/-- Decode failures: JSON parse failure, missing `"daily"` object, or a key
resolver failure (which itself names the offending field). -/
inductive DecodeError where
  | parseFailure
  | noDailyData
  | keyError (e : ResolveError)

deriving DecidableEq, Repr

/-- The `collect::<Result<_, _>>()` over the resolver: resolve each field
key, short-circuiting on the first failure. -/
def decodeFields {α : Type} :
    List (String × List (Option α)) →
    Except ResolveError (List (MeasureAndModel × List (Option α)))
  | [] => .ok []
  | (k, v) :: t =>
    match response_key_to_measure_and_model k with
    | .error e => .error e
    | .ok mm =>
      match decodeFields t with
      | .error e => .error e
      | .ok rest => .ok ((mm, v) :: rest)

/-- `decode_response_to_daily_data_columnar_format` of `src/fetch_data.rs`,
taking the outcome of `serde_json::from_str` as input: fail on parse
failure, fail when `daily` is absent, resolve every field key (all-or-
nothing), and otherwise repackage time axis and fields. -/
def decode_response_to_daily_data_columnar_format {α : Type}
    (parsed : Option (DailyDataResponseFullResponse α)) :
    Except DecodeError (DailyDataColumnarFormat α) :=
  match parsed with
  | none => .error .parseFailure
  | some response =>
    match response.daily with
    | none => .error .noDailyData
    | some raw =>
      match decodeFields raw.data_fields with
      | .error e => .error (.keyError e)
      | .ok fields => .ok ⟨raw.time, fields⟩

/-! ## `src/url_fetch.rs`: `cache_file_path`

`cache_file_path` derives the file name from the parsed URL (host, path,
query), sanitized via the `sanitize-filename` crate (default options,
non-Windows: strip the characters `/ ? < > \ : * | "` and the control
ranges U+0000–U+001F, U+0080–U+009F; collapse a name consisting solely of
dots; truncate to 255 bytes), byte-truncated to 100, with the first 16 hex
characters of the SHA-256 of the full URL string appended. The cache
directory is a per-run constant prefix and does not affect path equality,
so the file name is modelled. `Url::parse` itself is not re-implemented:
the model receives the parse's host/path/query alongside the raw URL
string. Byte slicing (`&sanitized[..100]`) is modelled as truncation at
the last char boundary at or below the byte limit (on ASCII data the two
agree; off a boundary the Rust code would panic). -/

/-- UTF-8 size in bytes of one scalar value (`char::len_utf8`). -/
def charUtf8Size (c : Char) : Nat :=
  if c.toNat < 128 then 1
  else if c.toNat < 2048 then 2
  else if c.toNat < 65536 then 3
  else 4

/-- UTF-8 encoding of one scalar value, as byte values. -/
def charUtf8 (c : Char) : List Nat :=
  let n := c.toNat
  if n < 128 then [n]
  else if n < 2048 then [192 ||| (n >>> 6), 128 ||| (n &&& 63)]
  else if n < 65536 then
    [224 ||| (n >>> 12), 128 ||| ((n >>> 6) &&& 63), 128 ||| (n &&& 63)]
  else
    [240 ||| (n >>> 18), 128 ||| ((n >>> 12) &&& 63),
     128 ||| ((n >>> 6) &&& 63), 128 ||| (n &&& 63)]

/-- `str::as_bytes`: the UTF-8 bytes of a string. -/
def utf8Bytes (s : String) : List Nat :=
  (s.data.map charUtf8).flatten

/-- `str::len`: the UTF-8 byte length of a char sequence. -/
def utf8Len (l : List Char) : Nat :=
  (l.map charUtf8Size).sum

/-- Truncate a char sequence to at most `n` UTF-8 bytes, at a char
boundary. -/
def takeBytes : Nat → List Char → List Char
  | _, [] => []
  | n, c :: cs =>
    if charUtf8Size c ≤ n then c :: takeBytes (n - charUtf8Size c) cs else []

/-! ### SHA-256 (the `sha2` crate's `Sha256`), over byte lists -/

/-- The SHA-256 round constants. -/
def K256 : List Nat :=
  [1116352408, 1899447441, 3049323471, 3921009573, 961987163, 1508970993,
   2453635748, 2870763221, 3624381080, 310598401, 607225278, 1426881987,
   1925078388, 2162078206, 2614888103, 3248222580, 3835390401, 4022224774,
   264347078, 604807628, 770255983, 1249150122, 1555081692, 1996064986,
   2554220882, 2821834349, 2952996808, 3210313671, 3336571891, 3584528711,
   113926993, 338241895, 666307205, 773529912, 1294757372, 1396182291,
   1695183700, 1986661051, 2177026350, 2456956037, 2730485921, 2820302411,
   3259730800, 3345764771, 3516065817, 3600352804, 4094571909, 275423344,
   430227734, 506948616, 659060556, 883997877, 958139571, 1322822218,
   1537002063, 1747873779, 1955562222, 2024104815, 2227730452, 2361852424,
   2428436474, 2756734187, 3204031479, 3329325298]

/-- The SHA-256 initial hash state. -/
def H256 : List Nat :=
  [1779033703, 3144134277, 1013904242, 2773480762,
   1359893119, 2600822924, 528734635, 1541459225]

/-- 32-bit right rotation. -/
def rotr32 (n x : Nat) : Nat :=
  ((x >>> n) ||| (x <<< (32 - n))) % 4294967296

/-- Big-endian 64-bit byte decomposition (for the padded bit length). -/
def be64 (n : Nat) : List Nat :=
  [(n >>> 56) % 256, (n >>> 48) % 256, (n >>> 40) % 256, (n >>> 32) % 256,
   (n >>> 24) % 256, (n >>> 16) % 256, (n >>> 8) % 256, n % 256]

/-- Big-endian bytes of a 32-bit word. -/
def wordBe (w : Nat) : List Nat :=
  [(w >>> 24) % 256, (w >>> 16) % 256, (w >>> 8) % 256, w % 256]

/-- SHA-256 padding: `0x80`, zeros to 56 mod 64, then the 64-bit big-endian
bit length. -/
def sha256pad (msg : List Nat) : List Nat :=
  msg ++ [128] ++ List.replicate ((64 - ((msg.length + 9) % 64)) % 64) 0 ++
    be64 (8 * msg.length)

/-- Split into 64-byte blocks (structural recursion on a fuel bounded by the
list length, so that the kernel can evaluate digests). -/
def chunks64Aux : Nat → List Nat → List (List Nat)
  | _, [] => []
  | 0, _ :: _ => []
  | fuel + 1, b :: rest =>
    (b :: rest).take 64 :: chunks64Aux fuel ((b :: rest).drop 64)

/-- Split into 64-byte blocks. -/
def chunks64 (l : List Nat) : List (List Nat) :=
  chunks64Aux l.length l

/-- Big-endian 32-bit words of a block. -/
def toWords : List Nat → List Nat
  | b0 :: b1 :: b2 :: b3 :: rest =>
    ((b0 <<< 24) + (b1 <<< 16) + (b2 <<< 8) + b3) :: toWords rest
  | _ => []

/-- Extend the 16 block words to the 64-entry message schedule. -/
def sched (w16 : List Nat) : List Nat :=
  (List.range 48).foldl (fun w _ =>
    let i := w.length
    let x15 := w.getD (i - 15) 0
    let x2 := w.getD (i - 2) 0
    let s0 := rotr32 7 x15 ^^^ rotr32 18 x15 ^^^ (x15 >>> 3)
    let s1 := rotr32 17 x2 ^^^ rotr32 19 x2 ^^^ (x2 >>> 10)
    w ++ [(w.getD (i - 16) 0 + s0 + w.getD (i - 7) 0 + s1) % 4294967296]) w16

/-- One SHA-256 compression round. -/
def sha256round (st : List Nat) (k w : Nat) : List Nat :=
  let a := st.getD 0 0
  let b := st.getD 1 0
  let c := st.getD 2 0
  let d := st.getD 3 0
  let e := st.getD 4 0
  let f := st.getD 5 0
  let g := st.getD 6 0
  let hh := st.getD 7 0
  let s1 := rotr32 6 e ^^^ rotr32 11 e ^^^ rotr32 25 e
  let ch := (e &&& f) ^^^ ((e ^^^ 4294967295) &&& g)
  let temp1 := (hh + s1 + ch + k + w) % 4294967296
  let s0 := rotr32 2 a ^^^ rotr32 13 a ^^^ rotr32 22 a
  let maj := (a &&& b) ^^^ (a &&& c) ^^^ (b &&& c)
  let temp2 := (s0 + maj) % 4294967296
  [(temp1 + temp2) % 4294967296, a, b, c, (d + temp1) % 4294967296, e, f, g]

/-- Compress one 64-byte block into the running hash state. -/
def sha256compress (hs : List Nat) (block : List Nat) : List Nat :=
  let w := sched (toWords block)
  let st := (K256.zip w).foldl (fun st kw => sha256round st kw.1 kw.2) hs
  [(hs.getD 0 0 + st.getD 0 0) % 4294967296,
   (hs.getD 1 0 + st.getD 1 0) % 4294967296,
   (hs.getD 2 0 + st.getD 2 0) % 4294967296,
   (hs.getD 3 0 + st.getD 3 0) % 4294967296,
   (hs.getD 4 0 + st.getD 4 0) % 4294967296,
   (hs.getD 5 0 + st.getD 5 0) % 4294967296,
   (hs.getD 6 0 + st.getD 6 0) % 4294967296,
   (hs.getD 7 0 + st.getD 7 0) % 4294967296]

/-- SHA-256 of a byte sequence, as its 32 digest bytes. -/
def sha256 (msg : List Nat) : List Nat :=
  (((chunks64 (sha256pad msg)).foldl sha256compress H256).map wordBe).flatten

/-- Lowercase hex digit. -/
def hexDigit (n : Nat) : Char :=
  if n < 10 then Char.ofNat (48 + n) else Char.ofNat (87 + n)

/-- Two lowercase hex characters of one byte (`hex::encode`). -/
def hexByte (b : Nat) : List Char :=
  [hexDigit (b / 16 % 16), hexDigit (b % 16)]

/-- `hex::encode` of a byte sequence. -/
def hexEncode (bs : List Nat) : List Char :=
  (bs.map hexByte).flatten

/-! ### `sanitize_filename::sanitize` (default options, non-Windows) -/

/-- The characters removed by the crate's illegal-character class. -/
def isIllegalChar (c : Char) : Bool :=
  (['/', '?', '<', '>', '\\', ':', '*', '|', '"'] : List Char).contains c

/-- The control ranges removed by the crate (U+0000–U+001F and
U+0080–U+009F). -/
def isControlChar (c : Char) : Bool :=
  c.toNat ≤ 31 || (128 ≤ c.toNat && c.toNat ≤ 159)

/-- First sanitizing pass: remove illegal and control characters. -/
def sanitizeFilter (l : List Char) : List Char :=
  l.filter (fun c => !(isIllegalChar c || isControlChar c))

/-- Second sanitizing pass: a non-empty all-dots name becomes empty
(the crate's `^\.+$` reserved-name replacement). -/
def sanitizeDots (l : List Char) : List Char :=
  if !l.isEmpty && l.all (fun c => c == '.') then [] else l

/-- `sanitize_filename::sanitize` on the char sequence: remove illegal and
control characters, collapse an all-dots result to empty, truncate to 255
bytes. -/
def sanitizeChars (l : List Char) : List Char :=
  takeBytes 255 (sanitizeDots (sanitizeFilter l))

/-- A URL together with the components `Url::parse` extracts from it on
this path. -/
structure ParsedUrl where
  raw : String
  host : Option String
  path : String
  query : Option String

/-- The readable base name: `{host or "unknown"}_{path with '/' replaced by
'_'}` plus `_{query}` when a query is present (`parsed.path().replace`
substitutes character-wise). -/
def cacheBaseName (u : ParsedUrl) : String :=
  (u.host.getD "unknown") ++ "_" ++
    (⟨u.path.data.map (fun c => if c = '/' then '_' else c)⟩ : String) ++
    (match u.query with
     | none => ""
     | some q => "_" ++ q)

/-- The sanitized base name truncated to its first 100 bytes
(`&sanitized[..100]`) when longer than 100 bytes. -/
def cacheReadablePrefix (u : ParsedUrl) : List Char :=
  let sanitized := sanitizeChars (cacheBaseName u).data
  if 100 < utf8Len sanitized then takeBytes 100 sanitized else sanitized

/-- The first 16 hex characters of the SHA-256 of the full URL
(`&hash[..16]`). -/
def hashPrefix16 (u : ParsedUrl) : List Char :=
  (hexEncode (sha256 (utf8Bytes u.raw))).take 16

/-- The cache file name built by `cache_file_path` of `src/url_fetch.rs`:
`{sanitized base, first 100 bytes}_{first 16 hex chars of sha256(url)}.json`.
The cache directory the file sits in is a per-run constant, so two cache
file paths are equal exactly when these names are. -/
def cache_file_name (u : ParsedUrl) : String :=
  (⟨cacheReadablePrefix u⟩ : String) ++ "_" ++
    (⟨hashPrefix16 u⟩ : String) ++ ".json"

/-! ### Shape lemmas for the digest and its hex encoding -/

/-! ### C6: the injectivity claim and its failure in principle

The file name stores only 64 bits of the URL's SHA-256 (16 hex characters),
and the readable prefix is truncated to 100 bytes, so the name-deriving
function maps an infinite family of URLs — all agreeing on their first 100
sanitized bytes — into a finite set of hash slots: two of them must share a
cache file name. The witness family varies only the tail of the query
string. -/

/-- A query string of `100 + n` letters `a`. -/
def qStr (n : Nat) : String :=
  ⟨List.replicate (100 + n) 'a'⟩

/-- The URL `http://h/p?aaa…a` with `100 + n` trailing `a`s, together with
its parsed host, path and query. -/
def collidingUrl (n : Nat) : ParsedUrl :=
  ⟨"http://h/p?" ++ qStr n, some "h", "/p", some (qStr n)⟩

/-- The first 8 entries of a byte list, zero-padded (on a 32-byte digest
this is plain truncation; the padding only makes the length generic). -/
def first8 (l : List Nat) : List Nat :=
  (l ++ List.replicate 8 0).take 8

/-- The first 8 digest bytes of a URL's SHA-256, as a vector over `Fin 256`
(a finite type). -/
def hashKey (u : ParsedUrl) : Mathlib.Vector (Fin 256) 8 :=
  ⟨(first8 (sha256 (utf8Bytes u.raw))).map
      (fun b => ⟨b % 256, Nat.mod_lt _ (by decide)⟩),
   by
    rw [List.length_map]
    unfold first8
    rw [List.length_take, List.length_append, List.length_replicate]
    omega⟩

/-! ## Theorems -/

/-- The registry is weakly sorted by descending length. -/
theorem all_distinct_models_len_sorted :
    ALL_DISTINCT_MODELS.Pairwise (fun a b => b.data.length ≤ a.data.length) := by
  decide

/-- On a list weakly sorted by descending length, `find?` returns an element
of maximal length among those satisfying the predicate. -/
theorem find_first_longest {p : String → Bool} :
    ∀ {l : List String}, l.Pairwise (fun a b => b.data.length ≤ a.data.length) →
      ∀ {m : String}, l.find? p = some m →
      ∀ m' ∈ l, p m' = true → m'.data.length ≤ m.data.length := by
  intro l
  induction l with
  | nil => intro _ m hm; simp at hm
  | cons a t ih =>
    intro hl m hm m' hm' hp
    rcases List.pairwise_cons.mp hl with ⟨ha, ht⟩
    by_cases hpa : p a = true
    · rw [List.find?_cons_of_pos _ hpa] at hm
      cases hm
      rcases List.mem_cons.mp hm' with h | h
      · subst h; exact le_refl _
      · exact ha m' h
    · rw [List.find?_cons_of_neg _ hpa] at hm
      rcases List.mem_cons.mp hm' with h | h
      · subst h; exact absurd hp hpa
      · exact ih ht hm m' h hp

/-- A successful resolve returns exactly the model found by the registry
scan. -/
theorem resolve_ok_find {key : String} {r : MeasureAndModel}
    (h : response_key_to_measure_and_model key = .ok r) :
    ALL_DISTINCT_MODELS.find? (fun m => endsWithB key m) = some r.model := by
  unfold response_key_to_measure_and_model at h
  cases hf : ALL_DISTINCT_MODELS.find? (fun m => endsWithB key m) with
  | none => rw [hf] at h; simp at h
  | some m =>
    rw [hf] at h
    cases hs : stripSuffixB key ("_" ++ m) with
    | none => simp only [hs] at h; exact absurd h (by simp)
    | some meas =>
      simp only [hs, Except.ok.injEq] at h
      rw [← h]

/-- C3: the resolver selects the first registry model (in the registry's
length-descending order) that is a suffix of the raw key — hence a model of
maximal length among all suffix matches — and on the two concrete keys of
the specification it returns `("rain_sum", "meteoswiss_icon_seamless")`
and `("precipitation_hours", "kma_ldps")` respectively. -/
theorem c3_resolver_longest_suffix :
    (∀ key r, response_key_to_measure_and_model key = .ok r →
      r.model ∈ ALL_DISTINCT_MODELS ∧
      endsWithB key r.model = true ∧
      ALL_DISTINCT_MODELS.find? (fun m => endsWithB key m) = some r.model ∧
      ∀ m' ∈ ALL_DISTINCT_MODELS, endsWithB key m' = true →
        m'.data.length ≤ r.model.data.length) ∧
    response_key_to_measure_and_model "rain_sum_meteoswiss_icon_seamless" =
      .ok ⟨"rain_sum", "meteoswiss_icon_seamless"⟩ ∧
    response_key_to_measure_and_model "precipitation_hours_kma_ldps" =
      .ok ⟨"precipitation_hours", "kma_ldps"⟩ := by
  refine ⟨?_, by decide, by decide⟩
  intro key r h
  have hf := resolve_ok_find h
  exact ⟨List.mem_of_find?_eq_some hf, List.find?_some hf, hf,
    find_first_longest all_distinct_models_len_sorted hf⟩

/-- Witness for C3 at the concrete key `"rain_sum_meteoswiss_icon_seamless"`. -/
theorem c3_resolver_longest_suffix_witness :
    ("meteoswiss_icon_seamless" : String) ∈ ALL_DISTINCT_MODELS ∧
    endsWithB "rain_sum_meteoswiss_icon_seamless" "meteoswiss_icon_seamless" = true ∧
    ALL_DISTINCT_MODELS.find?
      (fun m => endsWithB "rain_sum_meteoswiss_icon_seamless" m) =
      some "meteoswiss_icon_seamless" :=
  have h := c3_resolver_longest_suffix.1 "rain_sum_meteoswiss_icon_seamless"
    ⟨"rain_sum", "meteoswiss_icon_seamless"⟩ (by decide)
  ⟨h.1, h.2.1, h.2.2.1⟩

/-- C4: the resolver fails in exactly two cases and succeeds otherwise — it
fails with `UnresolvableFieldKey` when no registry entry is a suffix of the
key, fails with `MissingKeySeparator` when the first (length-descending)
suffix match is not preceded by `'_'`, and succeeds otherwise; concretely it
rejects `"rain_sum_unknown_model"` and `"rain_summeteoswiss_icon_seamless"`
with those respective errors. -/
theorem c4_resolver_failure_cases :
    (∀ key, ALL_DISTINCT_MODELS.find? (fun m => endsWithB key m) = none →
      response_key_to_measure_and_model key =
        .error (.unresolvableFieldKey key)) ∧
    (∀ key m, ALL_DISTINCT_MODELS.find? (fun m => endsWithB key m) = some m →
      endsWithB key ("_" ++ m) = false →
      response_key_to_measure_and_model key =
        .error (.missingKeySeparator key)) ∧
    (∀ key m, ALL_DISTINCT_MODELS.find? (fun m => endsWithB key m) = some m →
      endsWithB key ("_" ++ m) = true →
      response_key_to_measure_and_model key =
        .ok ⟨⟨key.data.take (key.data.length - ("_" ++ m).data.length)⟩, m⟩) ∧
    response_key_to_measure_and_model "rain_sum_unknown_model" =
      .error (.unresolvableFieldKey "rain_sum_unknown_model") ∧
    response_key_to_measure_and_model "rain_summeteoswiss_icon_seamless" =
      .error (.missingKeySeparator "rain_summeteoswiss_icon_seamless") := by
  refine ⟨?_, ?_, ?_, by decide, by decide⟩
  · intro key h
    simp [response_key_to_measure_and_model, h]
  · intro key m hf hsep
    simp [response_key_to_measure_and_model, hf, stripSuffixB, hsep]
  · intro key m hf hsep
    simp [response_key_to_measure_and_model, hf, stripSuffixB, hsep]

/-- Witness for C4: its three conditional parts applied at the concrete keys
`"rain_sum_unknown_model"`, `"rain_summeteoswiss_icon_seamless"` and
`"rain_sum_era5"`. -/
theorem c4_resolver_failure_cases_witness :
    response_key_to_measure_and_model "rain_sum_unknown_model" =
      .error (.unresolvableFieldKey "rain_sum_unknown_model") ∧
    response_key_to_measure_and_model "rain_summeteoswiss_icon_seamless" =
      .error (.missingKeySeparator "rain_summeteoswiss_icon_seamless") ∧
    response_key_to_measure_and_model "rain_sum_era5" =
      .ok ⟨⟨("rain_sum_era5" : String).data.take
            (("rain_sum_era5" : String).data.length -
              (("_" : String) ++ "era5").data.length)⟩, "era5"⟩ :=
  ⟨c4_resolver_failure_cases.1 "rain_sum_unknown_model" (by decide),
   c4_resolver_failure_cases.2.1 "rain_summeteoswiss_icon_seamless"
     "meteoswiss_icon_seamless" (by decide) (by decide),
   c4_resolver_failure_cases.2.2.1 "rain_sum_era5" "era5"
     (by decide) (by decide)⟩

/-- C7: `ALL_DISTINCT_MODELS` contains every model of the three fixed lists
exactly once, contains nothing else, is sorted by descending length with
length ties broken lexicographically, and is (definitionally) the value of a
pure function of the three fixed lists, so rebuilding yields the same
sequence. -/
theorem c7_registry_invariants :
    ALL_DISTINCT_MODELS.Nodup ∧
    ALL_DISTINCT_MODELS.Pairwise (fun a b =>
      b.data.length < a.data.length ∨
      (a.data.length = b.data.length ∧ strLtB a.data b.data = true)) ∧
    (∀ m ∈ ARCHIVE_MODELS ++ FORECAST_MODELS ++ ENSEMBLE_MODELS,
      ALL_DISTINCT_MODELS.count m = 1) ∧
    (∀ m ∈ ALL_DISTINCT_MODELS,
      m ∈ ARCHIVE_MODELS ++ FORECAST_MODELS ++ ENSEMBLE_MODELS) ∧
    sortLenDesc (btreeSetOfList
      (ARCHIVE_MODELS ++ FORECAST_MODELS ++ ENSEMBLE_MODELS)) =
      ALL_DISTINCT_MODELS := by
  refine ⟨by decide, by decide, by decide, by decide, rfl⟩

/-- Witness for C7 at the concrete model `"era5"`: it is listed, occurs
exactly once in the registry, and the registry's head is a longest entry. -/
theorem c7_registry_invariants_witness :
    ALL_DISTINCT_MODELS.count "era5" = 1 ∧
    ("icon_seamless" : String) ∈
      ARCHIVE_MODELS ++ FORECAST_MODELS ++ ENSEMBLE_MODELS :=
  ⟨c7_registry_invariants.2.2.1 "era5" (by decide),
   c7_registry_invariants.2.2.2.1 "icon_seamless" (by decide)⟩

/-- C10: for every measure in the three fixed daily-summable precipitation
measure lists and every model in the registry, resolving
`measure ++ "_" ++ model` succeeds and returns exactly that pair. -/
theorem c10_format_resolve_round_trip :
    ∀ me ∈ ARCHIVE_DAILY_SUMMABLE_PRECIPITATION_MEASURES ++
           FORECAST_DAILY_SUMMABLE_PRECIPITATION_MEASURES ++
           ENSEMBLE_DAILY_SUMMABLE_PRECIPITATION_MEASURES,
      ∀ mo ∈ ALL_DISTINCT_MODELS,
        response_key_to_measure_and_model (me ++ "_" ++ mo) = .ok ⟨me, mo⟩ := by
  decide

/-- Witness for C10 at the concrete pair `("rain_sum", "best_match")`. -/
theorem c10_format_resolve_round_trip_witness :
    response_key_to_measure_and_model ("rain_sum" ++ "_" ++ "best_match") =
      .ok ⟨"rain_sum", "best_match"⟩ :=
  c10_format_resolve_round_trip "rain_sum" (by decide) "best_match" (by decide)

/-- Counterexample to C1: with no cache file, a successful GET returning
`"body"`, and a failing cache write, `fetch_url_cached` returns the
propagated write error instead of the fetched body. -/
theorem c1_counterexample :
    fetch_url_cached ⟨false, true, 0, true, ""⟩ 0 (.ok "body") false =
      .error (.cacheIo .writeFailure) ∧
    fetch_url_cached ⟨false, true, 0, true, ""⟩ 0 (.ok "body") false ≠
      .ok "body" := by
  decide

/-- C1 amended: when the cache lookup yields no fresh entry and the GET
succeeds, the body is returned only if the cache store succeeds; a
cache-store failure is propagated by `write_cache(...)?` and fails the
overall fetch. -/
theorem c1_cache_write_failure_propagates (f : CacheFile) (now : Int)
    (body : String) (h : read_if_fresh f now = .ok none) :
    fetch_url_cached f now (.ok body) true = .ok body ∧
    fetch_url_cached f now (.ok body) false =
      .error (.cacheIo .writeFailure) := by
  unfold fetch_url_cached
  rw [h]
  exact ⟨rfl, rfl⟩

/-- Witness for the amended C1 on an absent cache file. -/
theorem c1_cache_write_failure_propagates_witness :
    fetch_url_cached ⟨false, true, 0, true, ""⟩ 5 (.ok "body") true =
      .ok "body" ∧
    fetch_url_cached ⟨false, true, 0, true, ""⟩ 5 (.ok "body") false =
      .error (.cacheIo .writeFailure) :=
  c1_cache_write_failure_propagates ⟨false, true, 0, true, ""⟩ 5 "body"
    (by decide)

/-- Counterexample to C2: a present cache file whose metadata cannot be read
does not fall through to the live fetch — `fetch_url_cached` returns the
propagated metadata error rather than the network body. A modification time
in the future (clock skew) likewise yields a propagated error. -/
theorem c2_counterexample :
    fetch_url_cached ⟨true, false, 0, true, "cached"⟩ 0 (.ok "live") true =
      .error (.cacheIo .metadataFailure) ∧
    fetch_url_cached ⟨true, false, 0, true, "cached"⟩ 0 (.ok "live") true ≠
      .ok "live" ∧
    fetch_url_cached ⟨true, true, 10, true, "cached"⟩ 0 (.ok "live") true =
      .error (.cacheIo .clockSkew) := by
  decide

/-- C2 amended: on the read path only the absent-file case is treated as a
cache miss that falls through to a live fetch; unreadable metadata and a
negative age (modification time after `now`) are each propagated to the
caller as errors. -/
theorem c2_read_path_only_absent_is_miss (f : CacheFile) (now : Int) :
    (f.present = false →
      read_if_fresh f now = .ok none ∧
      ∀ body, fetch_url_cached f now (.ok body) true = .ok body) ∧
    (f.present = true → f.metadataOk = false →
      ∀ net w, fetch_url_cached f now net w =
        .error (.cacheIo .metadataFailure)) ∧
    (f.present = true → f.metadataOk = true → now < f.modified →
      ∀ net w, fetch_url_cached f now net w =
        .error (.cacheIo .clockSkew)) := by
  refine ⟨?_, ?_, ?_⟩
  · intro hp
    have hr : read_if_fresh f now = .ok none := by
      unfold read_if_fresh; rw [hp]; rfl
    refine ⟨hr, ?_⟩
    intro body
    unfold fetch_url_cached
    rw [hr]
    rfl
  · intro hp hm net w
    have hr : read_if_fresh f now = .error .metadataFailure := by
      unfold read_if_fresh; rw [hp, hm]; rfl
    unfold fetch_url_cached
    rw [hr]
  · intro hp hm hsk net w
    have hr : read_if_fresh f now = .error .clockSkew := by
      unfold read_if_fresh
      rw [hp, hm]
      simp [hsk]
    unfold fetch_url_cached
    rw [hr]

/-- Witness for the amended C2 at three concrete cache-file states: absent;
present with unreadable metadata; present with a future modification time. -/
theorem c2_read_path_only_absent_is_miss_witness :
    (read_if_fresh ⟨false, true, 0, true, ""⟩ 7 = .ok none ∧
      fetch_url_cached ⟨false, true, 0, true, ""⟩ 7 (.ok "live") true =
        .ok "live") ∧
    fetch_url_cached ⟨true, false, 0, true, "c"⟩ 7 (.ok "live") true =
      .error (.cacheIo .metadataFailure) ∧
    fetch_url_cached ⟨true, true, 9, true, "c"⟩ 7 (.ok "live") true =
      .error (.cacheIo .clockSkew) :=
  ⟨have h := (c2_read_path_only_absent_is_miss ⟨false, true, 0, true, ""⟩ 7).1
      (by decide)
   ⟨h.1, h.2 "live"⟩,
   (c2_read_path_only_absent_is_miss ⟨true, false, 0, true, "c"⟩ 7).2.1
     (by decide) (by decide) (.ok "live") true,
   (c2_read_path_only_absent_is_miss ⟨true, true, 9, true, "c"⟩ 7).2.2
     (by decide) (by decide) (by decide) (.ok "live") true⟩

/-- Counterexample to C5: a cache entry modified at `t = 1` looked up at
`t' = 0` satisfies `t' < t + TTL`, yet `fetch_url_cached` does not return
the cached body — `SystemTime::duration_since` fails on the negative age and
the error is `?`-propagated. -/
theorem c5_counterexample :
    (0 : Int) < 1 + CACHE_TTL ∧
    fetch_url_cached ⟨true, true, 1, true, "cached"⟩ 0 (.ok "live") true =
      .error (.cacheIo .clockSkew) ∧
    fetch_url_cached ⟨true, true, 1, true, "cached"⟩ 0 (.ok "live") true ≠
      .ok "cached" := by
  decide

/-- C5 amended: for lookups at `t' ≥ t` (with readable metadata and a
readable file), the entry is fresh exactly when `t' - t < TTL`: then the
cached body is returned whatever the network would do (no network I/O);
for `t' - t ≥ TTL` the entry is stale and the live fetch's outcome is
returned. Lookups at `t' < t` instead propagate a clock-skew error
(`c5_counterexample`). -/
theorem c5_ttl_freshness (f : CacheFile) (now : Int)
    (hp : f.present = true) (hm : f.metadataOk = true) (hr : f.readOk = true)
    (hle : f.modified ≤ now) :
    (now - f.modified < CACHE_TTL →
      read_if_fresh f now = .ok (some f.contents) ∧
      ∀ net w, fetch_url_cached f now net w = .ok f.contents) ∧
    (CACHE_TTL ≤ now - f.modified →
      read_if_fresh f now = .ok none ∧
      (∀ body, fetch_url_cached f now (.ok body) true = .ok body) ∧
      (∀ e w, fetch_url_cached f now (.error e) w = .error (.network e))) := by
  have hnsk : ¬ now < f.modified := not_lt.mpr hle
  constructor
  · intro hfresh
    have h1 : read_if_fresh f now = .ok (some f.contents) := by
      simp [read_if_fresh, hp, hm, hr, hnsk, hfresh]
    exact ⟨h1, fun net w => by simp [fetch_url_cached, h1]⟩
  · intro hstale
    have hnfresh : ¬ now - f.modified < CACHE_TTL := not_lt.mpr hstale
    have h1 : read_if_fresh f now = .ok none := by
      simp [read_if_fresh, hp, hm, hnsk, hnfresh]
    exact ⟨h1, fun body => by simp [fetch_url_cached, h1],
           fun e w => by simp [fetch_url_cached, h1]⟩

/-- Witness for the amended C5: a fresh entry (age 10s) served from cache
even with the network failing, and a stale entry (age exactly TTL) refetched
live. -/
theorem c5_ttl_freshness_witness :
    read_if_fresh ⟨true, true, 0, true, "cached"⟩ 10 = .ok (some "cached") ∧
    fetch_url_cached ⟨true, true, 0, true, "cached"⟩ 10
      (.error .connectionFailure) true = .ok "cached" ∧
    read_if_fresh ⟨true, true, 0, true, "cached"⟩ 3600 = .ok none ∧
    fetch_url_cached ⟨true, true, 0, true, "cached"⟩ 3600 (.ok "live") true =
      .ok "live" :=
  have hf := (c5_ttl_freshness ⟨true, true, 0, true, "cached"⟩ 10
    (by decide) (by decide) (by decide) (by decide)).1 (by decide)
  have hs := (c5_ttl_freshness ⟨true, true, 0, true, "cached"⟩ 3600
    (by decide) (by decide) (by decide) (by decide)).2 (by decide)
  ⟨hf.1, hf.2 (.error .connectionFailure) true, hs.1, hs.2.1 "live"⟩

/-- A successful field collection resolves every input entry and keeps its
value sequence verbatim. -/
theorem decodeFields_ok_mem {α : Type} :
    ∀ {l : List (String × List (Option α))} {out},
      decodeFields l = .ok out →
      ∀ k v, (k, v) ∈ l →
        ∃ mm, response_key_to_measure_and_model k = .ok mm ∧ (mm, v) ∈ out := by
  intro l
  induction l with
  | nil => intro out _ k v hm; simp at hm
  | cons p t ih =>
    intro out h k v hm
    obtain ⟨pk, pv⟩ := p
    unfold decodeFields at h
    cases hr : response_key_to_measure_and_model pk with
    | error e => simp only [hr] at h; exact absurd h (by simp)
    | ok mm =>
      cases hd : decodeFields t with
      | error e => simp only [hr, hd] at h; exact absurd h (by simp)
      | ok rest =>
        simp only [hr, hd, Except.ok.injEq] at h
        subst h
        rcases List.mem_cons.mp hm with hh | hh
        · obtain ⟨hk, hv⟩ := Prod.mk.injEq .. ▸ hh
          subst hk; subst hv
          exact ⟨mm, hr, List.mem_cons_self _ _⟩
        · obtain ⟨mm', h1, h2⟩ := ih hd k v hh
          exact ⟨mm', h1, List.mem_cons_of_mem _ h2⟩

/-- If any entry's key fails to resolve, the whole collection fails, with an
error produced by a failing entry of the list. -/
theorem decodeFields_error_of_bad {α : Type} :
    ∀ {l : List (String × List (Option α))},
      (∃ k v e, (k, v) ∈ l ∧
        response_key_to_measure_and_model k = .error e) →
      ∃ e', decodeFields l = .error e' ∧
        ∃ k' v', (k', v') ∈ l ∧
          response_key_to_measure_and_model k' = .error e' := by
  intro l
  induction l with
  | nil =>
    intro h
    obtain ⟨k, v, e, hm, _⟩ := h
    simp at hm
  | cons p t ih =>
    intro h
    obtain ⟨pk, pv⟩ := p
    obtain ⟨k, v, e, hm, he⟩ := h
    cases hr : response_key_to_measure_and_model pk with
    | error e0 =>
      refine ⟨e0, ?_, pk, pv, List.mem_cons_self _ _, hr⟩
      simp only [decodeFields, hr]
    | ok mm =>
      have hm' : (k, v) ∈ t := by
        rcases List.mem_cons.mp hm with h1 | h1
        · obtain ⟨hk, _⟩ := Prod.mk.injEq .. ▸ h1
          subst hk
          rw [hr] at he
          exact absurd he (by simp)
        · exact h1
      obtain ⟨e', hd, k', v', hm'', he'⟩ := ih ⟨k, v, e, hm', he⟩
      refine ⟨e', ?_, k', v', List.mem_cons_of_mem _ hm'', he'⟩
      simp only [decodeFields, hr, hd]

/-- C8: the decoder is all-or-nothing — a top-level parse failure fails the
decode, an absent `"daily"` object fails the decode (never an empty
dataset), any single unresolvable field key aborts the whole decode with an
error naming an offending field, and a successful decode implies every field
key resolved. -/
theorem c8_decode_all_or_nothing (α : Type) :
    decode_response_to_daily_data_columnar_format
      (none : Option (DailyDataResponseFullResponse α)) =
      .error .parseFailure ∧
    (∀ response : DailyDataResponseFullResponse α, response.daily = none →
      decode_response_to_daily_data_columnar_format (some response) =
        .error .noDailyData) ∧
    (∀ (response : DailyDataResponseFullResponse α) raw,
      response.daily = some raw →
      (∃ k v e, (k, v) ∈ raw.data_fields ∧
        response_key_to_measure_and_model k = .error e) →
      ∃ e', decode_response_to_daily_data_columnar_format (some response) =
          .error (.keyError e') ∧
        ∃ k' v', (k', v') ∈ raw.data_fields ∧
          response_key_to_measure_and_model k' = .error e') ∧
    (∀ (response : DailyDataResponseFullResponse α) raw d,
      response.daily = some raw →
      decode_response_to_daily_data_columnar_format (some response) = .ok d →
      ∀ k v, (k, v) ∈ raw.data_fields →
        ∃ mm, response_key_to_measure_and_model k = .ok mm) := by
  refine ⟨rfl, ?_, ?_, ?_⟩
  · intro response hd
    simp [decode_response_to_daily_data_columnar_format, hd]
  · intro response raw hd hbad
    obtain ⟨e', hf, k', v', hm, he⟩ := decodeFields_error_of_bad hbad
    refine ⟨e', ?_, k', v', hm, he⟩
    simp [decode_response_to_daily_data_columnar_format, hd, hf]
  · intro response raw d hd hok k v hm
    unfold decode_response_to_daily_data_columnar_format at hok
    simp only [hd] at hok
    cases hf : decodeFields raw.data_fields with
    | error e => simp only [hf] at hok; exact absurd hok (by simp)
    | ok fields =>
      obtain ⟨mm, h1, _⟩ := decodeFields_ok_mem hf k v hm
      exact ⟨mm, h1⟩

/-- Witness for C8 over `α = ℚ`: a parse failure, a missing `"daily"`
object, and a document whose single field key `"rain_sum_unknown_model"`
does not resolve, all rejected; the failing decode names the offending
field. -/
theorem c8_decode_all_or_nothing_witness :
    decode_response_to_daily_data_columnar_format
      (none : Option (DailyDataResponseFullResponse ℚ)) =
      .error .parseFailure ∧
    decode_response_to_daily_data_columnar_format
      (some (⟨none⟩ : DailyDataResponseFullResponse ℚ)) =
      .error .noDailyData ∧
    ∃ e', decode_response_to_daily_data_columnar_format
        (some (⟨some ⟨["2026-02-13"], [("rain_sum_unknown_model",
          [some (0 : ℚ)])]⟩⟩ : DailyDataResponseFullResponse ℚ)) =
        .error (.keyError e') ∧
      ∃ k' v', (k', v') ∈ [("rain_sum_unknown_model", [some (0 : ℚ)])] ∧
        response_key_to_measure_and_model k' = .error e' :=
  ⟨(c8_decode_all_or_nothing ℚ).1,
   (c8_decode_all_or_nothing ℚ).2.1 ⟨none⟩ rfl,
   (c8_decode_all_or_nothing ℚ).2.2.1
     ⟨some ⟨["2026-02-13"], [("rain_sum_unknown_model", [some (0 : ℚ)])]⟩⟩
     ⟨["2026-02-13"], [("rain_sum_unknown_model", [some (0 : ℚ)])]⟩ rfl
     ⟨"rain_sum_unknown_model", [some (0 : ℚ)],
      .unresolvableFieldKey "rain_sum_unknown_model",
      List.mem_cons_self _ _, by decide⟩⟩

/-- C9: decoding the specification's example document yields the dataset
keyed by `(rain_sum, best_match)` with values `[0.0, 0.5]`; `null` entries
are preserved verbatim (`[0.0, null]` stays `[0.0, null]`); and in general a
successful decode carries every field's value sequence over unchanged, for
an arbitrary value type (so the decoder cannot coerce `null` to `0.0`). -/
theorem c9_decode_example_preserves_nulls :
    decode_response_to_daily_data_columnar_format
      (some (⟨some ⟨["2026-02-13", "2026-02-14"],
        [("rain_sum_best_match", [some (0 : ℚ), some (1/2 : ℚ)])]⟩⟩ :
        DailyDataResponseFullResponse ℚ)) =
      .ok ⟨["2026-02-13", "2026-02-14"],
        [(⟨"rain_sum", "best_match"⟩,
          [some (0 : ℚ), some (1/2 : ℚ)])]⟩ ∧
    decode_response_to_daily_data_columnar_format
      (some (⟨some ⟨["2026-02-13", "2026-02-14"],
        [("rain_sum_best_match", [some (0 : ℚ), none])]⟩⟩ :
        DailyDataResponseFullResponse ℚ)) =
      .ok ⟨["2026-02-13", "2026-02-14"],
        [(⟨"rain_sum", "best_match"⟩, [some (0 : ℚ), none])]⟩ ∧
    ∀ (α : Type) (raw : DailyDataRawColumnarFormat α) d,
      decode_response_to_daily_data_columnar_format (some ⟨some raw⟩) =
        .ok d →
      d.time = raw.time ∧
      ∀ k v, (k, v) ∈ raw.data_fields →
        ∃ mm, response_key_to_measure_and_model k = .ok mm ∧
          (mm, v) ∈ d.data_fields := by
  refine ⟨rfl, rfl, ?_⟩
  intro α raw d hok
  unfold decode_response_to_daily_data_columnar_format at hok
  cases hf : decodeFields raw.data_fields with
  | error e => simp only [hf] at hok; exact absurd hok (by simp)
  | ok fields =>
    simp only [hf, Except.ok.injEq] at hok
    subst hok
    exact ⟨rfl, fun k v hm => decodeFields_ok_mem hf k v hm⟩

/-- Witness for C9's general clause at the concrete `[0.0, null]` document
over `α = ℚ`. -/
theorem c9_decode_example_preserves_nulls_witness :
    ∃ mm, response_key_to_measure_and_model "rain_sum_best_match" =
        .ok mm ∧
      (mm, [some (0 : ℚ), none]) ∈
        [((⟨"rain_sum", "best_match"⟩ : MeasureAndModel),
          [some (0 : ℚ), none])] :=
  ((c9_decode_example_preserves_nulls.2.2 ℚ
    ⟨["2026-02-13", "2026-02-14"],
      [("rain_sum_best_match", [some (0 : ℚ), none])]⟩
    ⟨["2026-02-13", "2026-02-14"],
      [(⟨"rain_sum", "best_match"⟩, [some (0 : ℚ), none])]⟩
    rfl).2 "rain_sum_best_match" [some (0 : ℚ), none]
    (List.mem_cons_self _ _))

/-- The running hash state always has 8 words. -/
theorem foldl_sha256compress_length :
    ∀ (bs : List (List Nat)) (hs : List Nat), hs.length = 8 →
      (bs.foldl sha256compress hs).length = 8 := by
  intro bs
  induction bs with
  | nil => intro hs h; exact h
  | cons b t ih =>
    intro hs _
    exact ih (sha256compress hs b) rfl

/-- Flattening four big-endian bytes per word. -/
theorem join_map_wordBe_length :
    ∀ l : List Nat, ((l.map wordBe).flatten).length = 4 * l.length := by
  intro l
  induction l with
  | nil => rfl
  | cons w t ih =>
    simp only [List.map_cons, List.flatten_cons, List.length_append, ih,
      wordBe, List.length_cons, List.length_nil]
    omega

/-- A SHA-256 digest has 32 bytes. -/
theorem sha256_length (msg : List Nat) : (sha256 msg).length = 32 := by
  unfold sha256
  rw [join_map_wordBe_length,
    foldl_sha256compress_length (chunks64 (sha256pad msg)) H256 rfl]

/-- Every digest byte is below 256. -/
theorem sha256_lt (msg : List Nat) : ∀ b ∈ sha256 msg, b < 256 := by
  intro b hb
  unfold sha256 at hb
  rw [List.mem_flatten] at hb
  obtain ⟨l, hl, hbl⟩ := hb
  rw [List.mem_map] at hl
  obtain ⟨w, _, rfl⟩ := hl
  simp only [wordBe, List.mem_cons, List.not_mem_nil, or_false] at hbl
  rcases hbl with h | h | h | h <;> rw [h] <;> exact Nat.mod_lt _ (by decide)

/-- Hex encoding doubles the length. -/
theorem hexEncode_length :
    ∀ bs : List Nat, (hexEncode bs).length = 2 * bs.length := by
  intro bs
  induction bs with
  | nil => rfl
  | cons b t ih =>
    have hb : (hexByte b).length = 2 := rfl
    simp only [hexEncode, List.map_cons, List.flatten_cons,
      List.length_append, List.length_cons] at ih ⊢
    omega

/-- Taking `2 * n` hex characters is hex-encoding the first `n` bytes. -/
theorem take_hexEncode :
    ∀ (bs : List Nat) (n : Nat),
      (hexEncode bs).take (2 * n) = hexEncode (bs.take n) := by
  intro bs
  induction bs with
  | nil => intro n; simp [hexEncode]
  | cons b t ih =>
    intro n
    cases n with
    | zero => simp [hexEncode]
    | succ k =>
      have hcons : ∀ l : List Nat, hexEncode (b :: l) =
          hexDigit (b / 16 % 16) :: hexDigit (b % 16) :: hexEncode l :=
        fun l => rfl
      have harith : 2 * (k + 1) = 2 * k + 1 + 1 := by ring
      rw [List.take_succ_cons, hcons, hcons, harith, List.take_succ_cons,
        List.take_succ_cons, ih k]

/-- The 16-character hash prefix really has 16 characters. -/
theorem hashPrefix16_length (u : ParsedUrl) : (hashPrefix16 u).length = 16 := by
  unfold hashPrefix16
  rw [List.length_take, hexEncode_length, sha256_length]
  decide

/-- The characters of a derived cache file name: readable prefix, `'_'`,
16 hash characters, `".json"`. -/
theorem cache_file_name_data (u : ParsedUrl) :
    (cache_file_name u).data =
      (cacheReadablePrefix u ++ ['_']) ++
        (hashPrefix16 u ++ ".json".data) := by
  have base : (cache_file_name u).data =
      ((cacheReadablePrefix u ++ ['_']) ++ hashPrefix16 u) ++ ".json".data :=
    rfl
  rw [base, List.append_assoc]

/-- C6 amended: the derived cache file names of two URLs differ whenever the
16-hex-character SHA-256 prefixes of the two URLs differ (the readable
prefix cannot compensate: the hash occupies a fixed-width slot before the
fixed `".json"` suffix). -/
theorem c6_cache_path_hash_prefix_separation (u1 u2 : ParsedUrl)
    (h : hashPrefix16 u1 ≠ hashPrefix16 u2) :
    cache_file_name u1 ≠ cache_file_name u2 := by
  intro heq
  apply h
  have hd := congrArg String.data heq
  rw [cache_file_name_data u1, cache_file_name_data u2] at hd
  have hlen : (hashPrefix16 u1 ++ ".json".data).length =
      (hashPrefix16 u2 ++ ".json".data).length := by
    rw [List.length_append, List.length_append, hashPrefix16_length,
      hashPrefix16_length]
  obtain ⟨-, htail⟩ := List.append_inj' hd hlen
  obtain ⟨hpre, -⟩ := List.append_inj htail
    (by rw [hashPrefix16_length, hashPrefix16_length])
  exact hpre

/-- The readable base of every `collidingUrl`: `h__p_` then the `a`s. -/
theorem collidingUrl_base (n : Nat) :
    (cacheBaseName (collidingUrl n)).data =
      ['h', '_', '_', 'p', '_'] ++ List.replicate (100 + n) 'a' :=
  rfl

/-- The sanitizer keeps a run of `a`s. -/
theorem filter_keep_replicate (n : Nat) :
    (List.replicate n 'a').filter
      (fun c => !(isIllegalChar c || isControlChar c)) =
      List.replicate n 'a' :=
  List.filter_eq_self.mpr
    (fun c hc => by rw [List.eq_of_mem_replicate hc]; decide)

/-- On one-byte characters, byte truncation is char truncation. -/
theorem takeBytes_ascii :
    ∀ (l : List Char) (k : Nat), (∀ c ∈ l, charUtf8Size c = 1) →
      takeBytes k l = l.take k := by
  intro l
  induction l with
  | nil => intro k _; simp [takeBytes]
  | cons c cs ih =>
    intro k hall
    have hc : charUtf8Size c = 1 := hall c (List.mem_cons_self _ _)
    cases k with
    | zero =>
      unfold takeBytes
      rw [hc, if_neg (by omega)]
      rfl
    | succ j =>
      unfold takeBytes
      rw [hc, if_pos (by omega)]
      have hj : j + 1 - 1 = j := by omega
      rw [hj, ih j (fun x hx => hall x (List.mem_cons_of_mem _ hx)),
        List.take_succ_cons]

/-- On one-byte characters, the byte length is the char count. -/
theorem utf8Len_ascii :
    ∀ l : List Char, (∀ c ∈ l, charUtf8Size c = 1) →
      utf8Len l = l.length := by
  intro l
  induction l with
  | nil => intro _; rfl
  | cons c cs ih =>
    intro hall
    simp only [utf8Len, List.map_cons, List.sum_cons, List.length_cons] at ih ⊢
    rw [hall c (List.mem_cons_self _ _),
      ih (fun x hx => hall x (List.mem_cons_of_mem _ hx))]
    omega

/-- Every character of the colliding base is a one-byte character. -/
theorem collidingBase_ascii (n : Nat) :
    ∀ c ∈ ['h', '_', '_', 'p', '_'] ++ List.replicate (100 + n) 'a',
      charUtf8Size c = 1 := by
  intro c hc
  rcases List.mem_append.mp hc with h | h
  · exact (by decide :
      ∀ c ∈ (['h', '_', '_', 'p', '_'] : List Char), charUtf8Size c = 1) c h
  · rw [List.eq_of_mem_replicate h]; decide

/-- Sanitizing the colliding base keeps it (up to the crate's 255-byte
truncation). -/
theorem sanitize_colliding (n : Nat) :
    sanitizeChars (cacheBaseName (collidingUrl n)).data =
      (['h', '_', '_', 'p', '_'] ++ List.replicate (100 + n) 'a').take 255 := by
  rw [collidingUrl_base]
  unfold sanitizeChars
  have hfil : sanitizeFilter
      (['h', '_', '_', 'p', '_'] ++ List.replicate (100 + n) 'a') =
      ['h', '_', '_', 'p', '_'] ++ List.replicate (100 + n) 'a' := by
    unfold sanitizeFilter
    rw [List.filter_append, filter_keep_replicate]
    have hlit : (['h', '_', '_', 'p', '_'] : List Char).filter
        (fun c => !(isIllegalChar c || isControlChar c)) =
        ['h', '_', '_', 'p', '_'] := by decide
    rw [hlit]
  rw [hfil]
  have hdots : sanitizeDots
      (['h', '_', '_', 'p', '_'] ++ List.replicate (100 + n) 'a') =
      ['h', '_', '_', 'p', '_'] ++ List.replicate (100 + n) 'a' := by
    unfold sanitizeDots
    rw [List.all_append]
    have hlit2 : (['h', '_', '_', 'p', '_'] : List Char).all
        (fun c => c == '.') = false := by decide
    rw [hlit2]
    simp
  rw [hdots]
  exact takeBytes_ascii _ 255 (collidingBase_ascii n)

/-- The readable cache-name prefix is the same for every colliding URL. -/
theorem readable_colliding (n : Nat) :
    cacheReadablePrefix (collidingUrl n) =
      ['h', '_', '_', 'p', '_'] ++ List.replicate 95 'a' := by
  unfold cacheReadablePrefix
  rw [sanitize_colliding]
  have hallTake : ∀ c ∈ (['h', '_', '_', 'p', '_'] ++
      List.replicate (100 + n) 'a').take 255, charUtf8Size c = 1 :=
    fun c hc => collidingBase_ascii n c (List.mem_of_mem_take hc)
  have hlen : utf8Len ((['h', '_', '_', 'p', '_'] ++
      List.replicate (100 + n) 'a').take 255) = min 255 (105 + n) := by
    rw [utf8Len_ascii _ hallTake, List.length_take, List.length_append,
      List.length_replicate]
    have h5 : (['h', '_', '_', 'p', '_'] : List Char).length = 5 := rfl
    rw [h5]
    have : 5 + (100 + n) = 105 + n := by omega
    rw [this]
  rw [if_pos (by rw [hlen]; omega)]
  rw [takeBytes_ascii _ 100 hallTake, List.take_take]
  have hmin : min 100 255 = 100 := by decide
  rw [hmin, List.take_append_eq_append_take]
  have h1 : (['h', '_', '_', 'p', '_'] : List Char).take 100 =
      ['h', '_', '_', 'p', '_'] := rfl
  have h2 : 100 - (['h', '_', '_', 'p', '_'] : List Char).length = 95 := rfl
  rw [h1, h2, List.take_replicate]
  have h3 : min 95 (100 + n) = 95 := Nat.min_eq_left (by omega)
  rw [h3]

/-- On a list of at least 8 entries, `first8` is plain truncation. -/
theorem first8_eq_take8 (l : List Nat) (h : 8 ≤ l.length) :
    first8 l = l.take 8 := by
  unfold first8
  rw [List.take_append_eq_append_take]
  have h0 : 8 - l.length = 0 := by omega
  rw [h0]
  simp

/-- Mapping bytes below 256 into `Fin 256` is injective on byte lists. -/
theorem map_mod256_inj :
    ∀ l1 l2 : List Nat, (∀ b ∈ l1, b < 256) → (∀ b ∈ l2, b < 256) →
      l1.map (fun b => (⟨b % 256, Nat.mod_lt _ (by decide)⟩ : Fin 256)) =
        l2.map (fun b => (⟨b % 256, Nat.mod_lt _ (by decide)⟩ : Fin 256)) →
      l1 = l2 := by
  intro l1
  induction l1 with
  | nil =>
    intro l2 _ _ h
    cases l2 with
    | nil => rfl
    | cons b s => simp at h
  | cons a t ih =>
    intro l2 h1 h2 h
    cases l2 with
    | nil => simp at h
    | cons b s =>
      simp only [List.map_cons, List.cons.injEq] at h
      obtain ⟨hab, hts⟩ := h
      have hab' : a % 256 = b % 256 := congrArg Fin.val hab
      rw [Nat.mod_eq_of_lt (h1 a (List.mem_cons_self _ _)),
        Nat.mod_eq_of_lt (h2 b (List.mem_cons_self _ _))] at hab'
      rw [hab', ih s (fun x hx => h1 x (List.mem_cons_of_mem _ hx))
        (fun x hx => h2 x (List.mem_cons_of_mem _ hx)) hts]

set_option maxHeartbeats 1000000 in
/-- Counterexample to C6: the derived-cache-path function is not injective —
there exist two URLs with different raw strings (hence `u1 ≠ u2`) whose
derived cache file names coincide. Pigeonhole: the infinite `collidingUrl`
family shares one readable prefix, and only `2^64` hash slots remain. -/
theorem c6_counterexample :
    ¬ ∀ u1 u2 : ParsedUrl, u1.raw ≠ u2.raw →
        cache_file_name u1 ≠ cache_file_name u2 := by
  intro hclaim
  obtain ⟨n, m, hnm, hkey⟩ :=
    Finite.exists_ne_map_eq_of_infinite (fun n => hashKey (collidingUrl n))
  have hraw : (collidingUrl n).raw ≠ (collidingUrl m).raw := by
    intro h
    apply hnm
    have hlen := congrArg (fun s => s.data.length) h
    have hn : ((collidingUrl n).raw).data.length = 11 + (100 + n) := by
      show ("http://h/p?".data ++ List.replicate (100 + n) 'a').length = _
      rw [List.length_append, List.length_replicate]
      rfl
    have hm : ((collidingUrl m).raw).data.length = 11 + (100 + m) := by
      show ("http://h/p?".data ++ List.replicate (100 + m) 'a').length = _
      rw [List.length_append, List.length_replicate]
      rfl
    simp only [hn, hm] at hlen
    omega
  have hsub := congrArg Subtype.val hkey
  have hbound : ∀ msg : List Nat, ∀ b ∈ first8 (sha256 msg), b < 256 := by
    intro msg b hb
    have hb' := List.mem_of_mem_take hb
    rcases List.mem_append.mp hb' with h | h
    · exact sha256_lt msg b h
    · rw [List.eq_of_mem_replicate h]; omega
  have hfirst : first8 (sha256 (utf8Bytes (collidingUrl n).raw)) =
      first8 (sha256 (utf8Bytes (collidingUrl m).raw)) :=
    map_mod256_inj _ _ (hbound _) (hbound _) hsub
  have htake : (sha256 (utf8Bytes (collidingUrl n).raw)).take 8 =
      (sha256 (utf8Bytes (collidingUrl m).raw)).take 8 := by
    rw [← first8_eq_take8 _ (by rw [sha256_length]; omega),
      ← first8_eq_take8 _ (by rw [sha256_length]; omega), hfirst]
  have hpre : hashPrefix16 (collidingUrl n) =
      hashPrefix16 (collidingUrl m) := by
    unfold hashPrefix16
    have h16 : (16 : Nat) = 2 * 8 := rfl
    rw [h16, take_hexEncode, take_hexEncode, htake]
  have hname : cache_file_name (collidingUrl n) =
      cache_file_name (collidingUrl m) := by
    unfold cache_file_name
    rw [readable_colliding, readable_colliding, hpre]
  exact hclaim _ _ hraw hname

set_option maxRecDepth 100000 in
/-- Witness for the amended C6 at two concrete URLs whose 16-hex-character
hash prefixes differ: their cache file names differ. -/
theorem c6_cache_path_hash_prefix_separation_witness :
    hashPrefix16 ⟨"http://a/", some "a", "/", none⟩ ≠
      hashPrefix16 ⟨"http://b/", some "b", "/", none⟩ ∧
    cache_file_name ⟨"http://a/", some "a", "/", none⟩ ≠
      cache_file_name ⟨"http://b/", some "b", "/", none⟩ :=
  ⟨by decide,
   c6_cache_path_hash_prefix_separation ⟨"http://a/", some "a", "/", none⟩
     ⟨"http://b/", some "b", "/", none⟩ (by decide)⟩
